import Mathlib

/-!
# Simon game (`game.js`): a shallow embedding and its verified properties

The script keeps four module-level variables (`gamePattern`,
`userClickedPattern`, `started`, `level`) and reacts to three kinds of events:
a keypress on the document, a click on a `.btn` element, and the firing of a
`setTimeout(nextSequence, 1000)` callback scheduled by `checkAnswer`.

The embedding passes the state explicitly.  Besides the four variables the
state holds the number of `nextSequence` timeouts that are scheduled and have
not fired yet, and an append-only trace of the side effects the script performs
on the page (title text, sounds, animations, CSS classes, timeouts), in program
order.  `Math.random()` is a parameter of the functions that call it.

The script calls jQuery, which is not part of the repository.  The one call
whose argument comes from outside the script is `$("#" + currentColor)` in
`animatePress`, with the id of the clicked element: jQuery throws a syntax
error when it cannot parse the selector, and the click handler then ends
before `checkAnswer`.  A selector `#id` whose id is made of letters, digits,
`_` and `-` is recognised by jQuery itself and handed to
`document.getElementById`; what its selector engine says about every other id
is a parameter (`SelectorEngine`) of the click handler.

JavaScript values that occur in the two arrays are strings or `undefined`
(`buttonColours[i]` out of range, `attr("id")` of an element without id); they
are `Option String` here, with `none` for `undefined`, so that `===` is
equality of `Option String`.  `level` is a JavaScript number that only takes
the values `0, 1, 2, ...`; it is a `Nat`.
-/

namespace SimonGame

/-- A JavaScript value stored in the patterns: a string, or `undefined` (`none`). -/
abbrev Value := Option String

/-- `var buttonColours = ["red", "blue", "green", "yellow"];` -/
def buttonColours : List String := ["red", "blue", "green", "yellow"]

/-- Side effects on the page, the audio output and the timer queue. -/
inductive Effect where
  /-- `$("#level-title").text("Level " + level)` -/
  | levelTitle (level : Nat)
  /-- `$("#level-title").text("Game Over, Press Any Key to Restart")` -/
  | gameOverTitle
  /-- `new Audio("sounds/" + name + ".mp3").play()` -/
  | playSound (name : Value)
  /-- `animatePress(currentColor)`: add class `pressed`, remove it after 100 ms -/
  | animatePress (currentColor : Value)
  /-- `$("#" + colour).fadeIn(100).fadeOut(100).fadeIn(100)` -/
  | flash (colour : Value)
  /-- `$("body").addClass("game-over")` -/
  | addGameOverClass
  /-- `setTimeout(function () { $("body").removeClass("game-over"); }, 200)` -/
  | removeGameOverClassTimeout
  /-- `setTimeout(function () { nextSequence(); }, 1000)` -/
  | nextSequenceTimeout
  deriving DecidableEq, Repr

/-- The module-level variables of `game.js`, the pending `nextSequence`
timeouts, and the trace of side effects performed so far. -/
structure State where
  gamePattern : List Value
  userClickedPattern : List Value
  started : Bool
  level : Nat
  /-- number of `setTimeout(nextSequence, 1000)` callbacks scheduled and not yet fired -/
  timers : Nat
  /-- side effects performed so far, oldest first -/
  trace : List Effect
  deriving DecidableEq, Repr

/-- The state after the script has been loaded (lines 4-8): nothing scheduled,
nothing performed. -/
def initial : State :=
  { gamePattern := [], userClickedPattern := [], started := false, level := 0,
    timers := 0, trace := [] }

/-- Record one side effect at the end of the trace. -/
def emit (e : Effect) (st : State) : State :=
  { st with trace := st.trace ++ [e] }

/-- Array read `xs[i]` for an index `i >= 0`: `undefined` when out of range. -/
def readAt (xs : List Value) (i : Nat) : Value :=
  xs.getD i none

/-- Array read `buttonColours[n]` for a JavaScript integer `n`: `undefined` when
`n` is negative or not below the length. -/
def colourAt (n : Int) : Value :=
  if 0 ≤ n then buttonColours.get? n.toNat else none

/-- `Math.floor(Math.random() * 4)` for the draw `r`.  (For a double `r` in
`[0, 1)` the product `r * 4` is exact, so the rational computation agrees with
the floating-point one.) -/
def randomNumber (r : ℚ) : Int :=
  Int.floor (r * 4)

/-- The string a value becomes in `"#" + value`. -/
def jsString (v : Value) : String :=
  v.getD "undefined"

/-- A character of the class `[A-Za-z0-9_-]`. -/
def plainIdChar (ch : Char) : Bool :=
  (48 ≤ ch.toNat && ch.toNat ≤ 57) || (65 ≤ ch.toNat && ch.toNat ≤ 90) ||
    (97 ≤ ch.toNat && ch.toNat ≤ 122) || ch.toNat == 95 || ch.toNat == 45

/-- The ids `id` for which `$("#" + id)` is the `#id` shortcut of jQuery
(`#` followed by one or more characters of `[A-Za-z0-9_-]`), which does not go
through the selector engine and cannot throw. -/
def plainId (s : String) : Bool :=
  !s.data.isEmpty && s.data.all plainIdChar

/-- What jQuery's selector engine says about an id that is not a `plainId`:
`true` when `$("#" + id)` returns, `false` when it throws a syntax error.
jQuery is not part of the repository, so this is a parameter. -/
abbrev SelectorEngine := String → Bool

/-- Whether `$("#" + v)` returns (`true`) or throws (`false`). -/
def selectorOk (eng : SelectorEngine) (v : Value) : Bool :=
  plainId (jsString v) || eng (jsString v)

/-- `function playSound(name)` (lines 124-127). -/
def playSound (name : Value) (st : State) : State :=
  emit (.playSound name) st

/-- `function animatePress(currentColor)` (lines 112-117): `.ok` with the
animation started, or `.error` with the state unchanged when
`$("#" + currentColor)` at line 113 throws. -/
def animatePress (eng : SelectorEngine) (currentColor : Value) (st : State) :
    Except State State :=
  if selectorOk eng currentColor then .ok (emit (.animatePress currentColor) st)
  else .error st

/-- `function startOver()` (lines 137-141). -/
def startOver (st : State) : State :=
  { st with level := 0, gamePattern := [], started := false }

/-- `function nextSequence()` (lines 95-105), with `r` the value returned by
`Math.random()`.  The selector of line 103 is `#` followed by an entry of
`buttonColours` or by `undefined`, a `plainId` in each case, so it cannot
throw. -/
def nextSequence (r : ℚ) (st : State) : State :=
  let st := { st with userClickedPattern := [] }
  let st := { st with level := st.level + 1 }
  let st := emit (.levelTitle st.level) st
  let randomChosenColour := colourAt (randomNumber r)
  let st := { st with gamePattern := st.gamePattern ++ [randomChosenColour] }
  let st := emit (.flash randomChosenColour) st
  playSound randomChosenColour st

/-- `function checkAnswer(currentLevel)` (lines 61-80). -/
def checkAnswer (currentLevel : Nat) (st : State) : State :=
  if readAt st.gamePattern currentLevel = readAt st.userClickedPattern currentLevel then
    if st.userClickedPattern.length = st.gamePattern.length then
      emit .nextSequenceTimeout { st with timers := st.timers + 1 }
    else
      st
  else
    let st := playSound (some "wrong") st
    let st := emit .addGameOverClass st
    let st := emit .gameOverTitle st
    let st := emit .removeGameOverClassTimeout st
    startOver st

/-- The click handler of `.btn` (lines 43-52); `userChosenColour` is the value
of `$(this).attr("id")`.  `.ok` is the state when the handler returns, `.error`
the state in which it is left when `animatePress` throws at line 49: the push
and the sound have happened, `checkAnswer` has not run. -/
def clickHandler (eng : SelectorEngine) (userChosenColour : Value) (st : State) :
    Except State State :=
  let st := { st with userClickedPattern := st.userClickedPattern ++ [userChosenColour] }
  let st := playSound userChosenColour st
  match animatePress eng userChosenColour st with
  | .ok st => .ok (checkAnswer (st.userClickedPattern.length - 1) st)
  | .error st => .error st

/-- The state of the page after the click event has been handled, whether the
handler returned or threw (an exception in a handler does not undo what the
handler did before it). -/
def click (eng : SelectorEngine) (userChosenColour : Value) (st : State) : State :=
  match clickHandler eng userChosenColour st with
  | .ok st => st
  | .error st => st

/-- The keypress handler of the document (lines 17-23); `r` is the value
`Math.random()` returns if `nextSequence` is called. -/
def keypress (r : ℚ) (st : State) : State :=
  if !st.started then
    let st := emit (.levelTitle st.level) st
    let st := nextSequence r st
    { st with started := true }
  else
    st

/-- The callback of `setTimeout(function () { nextSequence(); }, 1000)`: it can
run only when such a timeout is pending, and consumes it. -/
def fire (r : ℚ) (st : State) : Option State :=
  if 0 < st.timers then some (nextSequence r { st with timers := st.timers - 1 }) else none

/-- The events the script reacts to. -/
inductive Event where
  /-- a key is pressed; `r` is the draw of `Math.random()` -/
  | keypress (r : ℚ)
  /-- a `.btn` element is clicked; `id` is the value of its `attr("id")`, a
  string or `undefined` -/
  | click (id : Value)
  /-- a pending `nextSequence` timeout fires; `r` is the draw of `Math.random()` -/
  | fire (r : ℚ)
  deriving DecidableEq

/-- `Math.random()` returns a number in `[0, 1)`. -/
def Event.drawOk : Event → Prop
  | .keypress r => 0 ≤ r ∧ r < 1
  | .click _ => True
  | .fire r => 0 ≤ r ∧ r < 1

/-- The clicked element has an id, and `$("#" + id)` returns for it: the click
handler does not throw. -/
def Event.idOk (eng : SelectorEngine) : Event → Prop
  | .keypress _ => True
  | .click id => id.isSome = true ∧ selectorOk eng id = true
  | .fire _ => True

/-- One event handled to completion; `none` when the event cannot occur (a
timeout firing with none pending). -/
def step (eng : SelectorEngine) (e : Event) (st : State) : Option State :=
  match e with
  | .keypress r => some (keypress r st)
  | .click c => some (click eng c st)
  | .fire r => fire r st

/-- Handle a list of events in order. -/
def run (eng : SelectorEngine) : List Event → State → Option State
  | [], st => some st
  | e :: es, st => (step eng e st).bind (run eng es)

/-- States the script can be in after any finite sequence of events: keypresses,
clicks on `.btn` elements with any id or none, firings of pending timeouts. -/
inductive Reachable (eng : SelectorEngine) : State → Prop where
  | init : Reachable eng initial
  | step {s t : State} (e : Event) (hs : Reachable eng s) (hd : e.drawOk)
      (ht : step eng e s = some t) : Reachable eng t

/-- States the script can be in after any finite sequence of events in which
every clicked element has an id whose selector jQuery accepts. -/
inductive ReachableIdOk (eng : SelectorEngine) : State → Prop where
  | init : ReachableIdOk eng initial
  | step {s t : State} (e : Event) (hs : ReachableIdOk eng s) (hd : e.drawOk)
      (hi : e.idOk eng) (ht : step eng e s = some t) : ReachableIdOk eng t

/-- A selector engine that, like jQuery's, rejects `#a!`; the examples that use
it do not depend on what it says about other ids. -/
def exampleEngine : SelectorEngine :=
  fun s => s != "a!"

/-- The state in which `checkAnswer` calls `startOver` when yellow is clicked
in `scenarioB`: the click is in the input buffer and the game-over effects of
lines 70-76 have been performed. -/
def scenarioBAtStartOver : State :=
  { gamePattern := [some "blue", some "red"], userClickedPattern := [some "yellow"],
    started := true, level := 2, timers := 0,
    trace := [.playSound (some "yellow"), .animatePress (some "yellow"),
      .playSound (some "wrong"), .addGameOverClass, .gameOverTitle,
      .removeGameOverClassTimeout] }

/-- Click the given symbols one after the other. -/
def clicks (eng : SelectorEngine) (cs : List Value) (st : State) : State :=
  cs.foldl (fun s c => click eng c s) st

/-- How many times the game-over branch of `checkAnswer` has run: the branch,
and nothing else in the script, adds the class `game-over` to the body. -/
def gameOvers (st : State) : Nat :=
  st.trace.count .addGameOverClass

/-- How many times `nextSequence` has been scheduled with `setTimeout`. -/
def scheduled (st : State) : Nat :=
  st.trace.count .nextSequenceTimeout

/-- The effects of clicks that all match and do not complete the round. -/
def clickEffects : List Value → List Effect
  | [] => []
  | c :: cs => .playSound c :: .animatePress c :: clickEffects cs

/-- A game that is lost while a `nextSequence` timeout is pending, followed by
the firing of that timeout: start (draw blue), click blue (the round is
complete, the timeout is scheduled), click red before the timeout fires (game
over), the timeout fires (draw green). -/
def staleTimerEvents : List Event :=
  [.keypress (1 / 4), .click (some "blue"), .click (some "red"), .fire (1 / 2)]

/-- The state `staleTimerEvents` leads to from the initial state. -/
def staleTimerState : State :=
  { gamePattern := [some "green"], userClickedPattern := [], started := false, level := 1,
    timers := 0,
    trace := [.levelTitle 0, .levelTitle 1, .flash (some "blue"), .playSound (some "blue"),
      .playSound (some "blue"), .animatePress (some "blue"), .nextSequenceTimeout,
      .playSound (some "red"), .animatePress (some "red"), .playSound (some "wrong"),
      .addGameOverClass, .gameOverTitle, .removeGameOverClassTimeout,
      .levelTitle 1, .flash (some "green"), .playSound (some "green")] }

/-- Scenario B of the specification before the two submissions: the pattern
is blue, red at level 2 and nothing has been clicked. -/
def scenarioB : State :=
  { gamePattern := [some "blue", some "red"], userClickedPattern := [], started := true,
    level := 2, timers := 0, trace := [] }

/-- Every entry of `gamePattern` is one of the four colours of `buttonColours`. -/
def coloursOnly (st : State) : Prop :=
  ∀ v ∈ st.gamePattern, v ∈ buttonColours.map some

instance (st : State) : Decidable (coloursOnly st) := by
  unfold coloursOnly
  infer_instance

/-- The state after the game is started with the draw 1/4 (blue). -/
def afterStart : State :=
  { gamePattern := [some "blue"], userClickedPattern := [], started := true, level := 1,
    timers := 0,
    trace := [.levelTitle 0, .levelTitle 1, .flash (some "blue"), .playSound (some "blue")] }

/-- The state after the game is started with the draw 1/4 (blue) and blue is
clicked: the round is complete and its `nextSequence` timeout is pending. -/
def afterFirstRound : State :=
  { gamePattern := [some "blue"], userClickedPattern := [some "blue"], started := true,
    level := 1, timers := 1,
    trace := [.levelTitle 0, .levelTitle 1, .flash (some "blue"), .playSound (some "blue"),
      .playSound (some "blue"), .animatePress (some "blue"), .nextSequenceTimeout] }

/-- A round completed and its `nextSequence` timeout still pending: the state
after blue is clicked against the pattern blue at level 1. -/
def roundCompletePending : State :=
  { gamePattern := [some "blue"], userClickedPattern := [some "blue"], started := true,
    level := 1, timers := 1,
    trace := [.playSound (some "blue"), .animatePress (some "blue"), .nextSequenceTimeout] }

/-! ## The handlers, case by case -/

theorem readAt_append_length (xs : List Value) (c : Value) :
    readAt (xs ++ [c]) xs.length = c := by
  simp [readAt]

theorem readAt_after_input (xs rest : List Value) (c : String)
    (h : readAt (xs ++ rest) xs.length = some c) : ∃ tl, rest = some c :: tl := by
  cases rest with
  | nil => simp [readAt] at h
  | cons a tl =>
    refine ⟨tl, ?_⟩
    have : a = some c := by
      have h2 : readAt (xs ++ a :: tl) xs.length = a := by
        unfold readAt
        rw [List.getD_append_right _ _ _ _ (le_refl _)]
        simp
      rw [h2] at h
      exact h
    rw [this]

theorem readAt_take_succ (xs : List Value) (k : Nat) (hk : k < xs.length) :
    xs.take (k + 1) = xs.take k ++ [readAt xs k] := by
  rw [List.take_succ]
  simp [readAt, List.getD_eq_getElem?_getD, List.getElem?_eq_getElem hk]

theorem selectorOk_of_plainId (eng : SelectorEngine) (v : Value)
    (h : plainId (jsString v) = true) : selectorOk eng v = true := by
  simp [selectorOk, h]

theorem selectorOk_of_mem_colours (eng : SelectorEngine) (v : Value)
    (h : v ∈ buttonColours.map some) : selectorOk eng v = true := by
  apply selectorOk_of_plainId
  simp only [buttonColours, List.map_cons, List.map_nil, List.mem_cons, List.mem_singleton,
    List.not_mem_nil, or_false] at h
  rcases h with rfl | rfl | rfl | rfl <;> decide

/-- The click handler when `$("#" + c)` throws in `animatePress`: the push and
the sound have happened and nothing else. -/
theorem clickHandler_thrown (eng : SelectorEngine) (c : Value) (st : State)
    (hs : selectorOk eng c = false) :
    clickHandler eng c st =
      .error { st with userClickedPattern := st.userClickedPattern ++ [c],
                       trace := st.trace ++ [.playSound c] } := by
  simp [clickHandler, playSound, animatePress, emit, hs]

theorem click_thrown (eng : SelectorEngine) (c : Value) (st : State)
    (hs : selectorOk eng c = false) :
    click eng c st =
      { st with userClickedPattern := st.userClickedPattern ++ [c],
                trace := st.trace ++ [.playSound c] } := by
  simp [click, clickHandler_thrown eng c st hs]

theorem clickHandler_returns (eng : SelectorEngine) (c : Value) (st : State)
    (hs : selectorOk eng c = true) :
    clickHandler eng c st = .ok (click eng c st) := by
  simp [click, clickHandler, playSound, animatePress, emit, hs]

theorem click_eq_checkAnswer (eng : SelectorEngine) (c : Value) (st : State)
    (hs : selectorOk eng c = true) :
    click eng c st =
      checkAnswer st.userClickedPattern.length
        { st with userClickedPattern := st.userClickedPattern ++ [c],
                  trace := st.trace ++ [.playSound c, .animatePress c] } := by
  simp [click, clickHandler, playSound, animatePress, emit, hs]

/-- The click handler when the new last input differs from the pattern at its
index: the game-over branch. -/
theorem click_mismatch (eng : SelectorEngine) (c : Value) (st : State)
    (hs : selectorOk eng c = true)
    (h : readAt st.gamePattern st.userClickedPattern.length ≠ c) :
    click eng c st =
      { gamePattern := [], userClickedPattern := st.userClickedPattern ++ [c],
        started := false, level := 0, timers := st.timers,
        trace := st.trace ++ [.playSound c, .animatePress c, .playSound (some "wrong"),
          .addGameOverClass, .gameOverTitle, .removeGameOverClassTimeout] } := by
  rw [click_eq_checkAnswer eng c st hs]
  unfold checkAnswer
  rw [if_neg (by simpa [readAt_append_length] using h)]
  simp [playSound, emit, startOver]

/-- The click handler when the new last input matches and the round is not
complete: nothing but the input buffer and the page changes. -/
theorem click_match_incomplete (eng : SelectorEngine) (c : Value) (st : State)
    (hs : selectorOk eng c = true)
    (h : readAt st.gamePattern st.userClickedPattern.length = c)
    (hlen : st.userClickedPattern.length + 1 ≠ st.gamePattern.length) :
    click eng c st =
      { st with userClickedPattern := st.userClickedPattern ++ [c],
                trace := st.trace ++ [.playSound c, .animatePress c] } := by
  rw [click_eq_checkAnswer eng c st hs]
  unfold checkAnswer
  rw [if_pos (by simpa [readAt_append_length] using h), if_neg (by simpa using hlen)]

/-- The click handler when the new last input matches and completes the round:
one `nextSequence` timeout is scheduled. -/
theorem click_match_complete (eng : SelectorEngine) (c : Value) (st : State)
    (hs : selectorOk eng c = true)
    (h : readAt st.gamePattern st.userClickedPattern.length = c)
    (hlen : st.userClickedPattern.length + 1 = st.gamePattern.length) :
    click eng c st =
      { st with userClickedPattern := st.userClickedPattern ++ [c],
                timers := st.timers + 1,
                trace := st.trace ++ [.playSound c, .animatePress c, .nextSequenceTimeout] } := by
  rw [click_eq_checkAnswer eng c st hs]
  unfold checkAnswer
  rw [if_pos (by simpa [readAt_append_length] using h), if_pos (by simpa using hlen)]
  simp [emit]

theorem nextSequence_eq (r : ℚ) (st : State) :
    nextSequence r st =
      { gamePattern := st.gamePattern ++ [colourAt (randomNumber r)],
        userClickedPattern := [], started := st.started, level := st.level + 1,
        timers := st.timers,
        trace := st.trace ++ [.levelTitle (st.level + 1), .flash (colourAt (randomNumber r)),
          .playSound (colourAt (randomNumber r))] } := by
  simp [nextSequence, playSound, emit]

theorem keypress_not_started (r : ℚ) (st : State) (h : st.started = false) :
    keypress r st =
      { gamePattern := st.gamePattern ++ [colourAt (randomNumber r)],
        userClickedPattern := [], started := true, level := st.level + 1,
        timers := st.timers,
        trace := st.trace ++ [.levelTitle st.level, .levelTitle (st.level + 1),
          .flash (colourAt (randomNumber r)), .playSound (colourAt (randomNumber r))] } := by
  simp [keypress, h, nextSequence_eq, emit]

theorem keypress_started (r : ℚ) (st : State) (h : st.started = true) :
    keypress r st = st := by
  simp [keypress, h]

/-- The draw selects index `k` exactly on the interval `[k/4, (k+1)/4)`. -/
theorem randomNumber_eq_of_mem (r : ℚ) (k : Int) (h1 : (k : ℚ) / 4 ≤ r)
    (h2 : r < ((k : ℚ) + 1) / 4) : randomNumber r = k := by
  unfold randomNumber
  rw [Int.floor_eq_iff]
  constructor <;> linarith

theorem randomNumber_range (r : ℚ) (h0 : 0 ≤ r) (h1 : r < 1) :
    0 ≤ randomNumber r ∧ randomNumber r < 4 := by
  unfold randomNumber
  constructor
  · exact Int.floor_nonneg.mpr (by linarith)
  · rw [Int.floor_lt]
    push_cast
    linarith

theorem colourAt_mem (r : ℚ) (h0 : 0 ≤ r) (h1 : r < 1) :
    ∃ c, c ∈ buttonColours ∧ colourAt (randomNumber r) = some c := by
  obtain ⟨hlo, hhi⟩ := randomNumber_range r h0 h1
  generalize randomNumber r = n at hlo hhi
  interval_cases n <;> simp [colourAt, buttonColours]

/-! ## Invariants of the reachable states -/

theorem step_length_eq_level (eng : SelectorEngine) (e : Event) (s t : State)
    (ht : step eng e s = some t)
    (h : s.gamePattern.length = s.level) : t.gamePattern.length = t.level := by
  cases e with
  | keypress r =>
    simp only [step, Option.some.injEq] at ht
    subst ht
    cases hst : s.started
    · rw [keypress_not_started r s hst]
      simp [h]
    · rw [keypress_started r s hst]
      exact h
  | click c =>
    simp only [step, Option.some.injEq] at ht
    subst ht
    cases hsel : selectorOk eng c
    · rw [click_thrown eng c s hsel]
      exact h
    · by_cases hm : readAt s.gamePattern s.userClickedPattern.length = c
      · by_cases hl : s.userClickedPattern.length + 1 = s.gamePattern.length
        · rw [click_match_complete eng c s hsel hm hl]
          exact h
        · rw [click_match_incomplete eng c s hsel hm hl]
          exact h
      · rw [click_mismatch eng c s hsel hm]
        rfl
  | fire r =>
    simp only [step, fire] at ht
    split at ht
    · simp only [Option.some.injEq] at ht
      subst ht
      rw [nextSequence_eq]
      simp [h]
    · exact absurd ht (by simp)

/-- C1. In every state reachable from the initial state by keypresses, button
clicks with any symbol (any id, or none, whether or not jQuery accepts its
selector) and firings of a pending `nextSequence` timeout with any draw, the
length of `gamePattern` equals `level`. -/
theorem reachable_gamePattern_length_eq_level (eng : SelectorEngine) (s : State)
    (h : Reachable eng s) :
    s.gamePattern.length = s.level := by
  induction h with
  | init => rfl
  | step e _ _ ht ih => exact step_length_eq_level eng e _ _ ht ih

theorem reachable_gamePattern_length_eq_level_witness :
    (keypress (1 / 4) initial).gamePattern.length = (keypress (1 / 4) initial).level :=
  reachable_gamePattern_length_eq_level exampleEngine (keypress (1 / 4) initial)
    (Reachable.step (Event.keypress (1 / 4)) Reachable.init
      (by norm_num [Event.drawOk]) rfl)

/-! ## Reproducing the pattern -/

theorem clickEffects_append (xs : List Value) (c : Value) :
    clickEffects (xs ++ [c]) = clickEffects xs ++ [.playSound c, .animatePress c] := by
  induction xs with
  | nil => rfl
  | cons a xs ih => simp [clickEffects, ih]

theorem count_clickEffects_addGameOverClass (xs : List Value) :
    (clickEffects xs).count .addGameOverClass = 0 := by
  induction xs with
  | nil => rfl
  | cons a xs ih => simp [clickEffects, ih]

theorem count_clickEffects_nextSequenceTimeout (xs : List Value) :
    (clickEffects xs).count .nextSequenceTimeout = 0 := by
  induction xs with
  | nil => rfl
  | cons a xs ih => simp [clickEffects, ih]

theorem clicks_append (eng : SelectorEngine) (xs : List Value) (c : Value) (st : State) :
    clicks eng (xs ++ [c]) st = click eng c (clicks eng xs st) := by
  simp [clicks, List.foldl_append]

theorem readAt_mem_of_lt (xs : List Value) (k : Nat) (hk : k < xs.length) :
    readAt xs k ∈ xs := by
  unfold readAt
  rw [List.getD_eq_getElem?_getD, List.getElem?_eq_getElem hk]
  exact List.getElem_mem hk

/-- Clicking a proper prefix of the pattern, from an empty input buffer, only
fills the buffer and plays the sounds and animations of the clicks. -/
theorem clicks_take_proper (eng : SelectorEngine) (st : State)
    (hsel : ∀ v ∈ st.gamePattern, selectorOk eng v = true)
    (hu : st.userClickedPattern = []) (k : Nat) (hk : k < st.gamePattern.length) :
    clicks eng (st.gamePattern.take k) st =
      { st with userClickedPattern := st.gamePattern.take k,
                trace := st.trace ++ clickEffects (st.gamePattern.take k) } := by
  induction k with
  | zero =>
    cases st
    simp_all [clicks, clickEffects]
  | succ k ih =>
    have hk1 : k < st.gamePattern.length := Nat.lt_of_succ_lt hk
    rw [readAt_take_succ _ _ hk1, clicks_append, ih hk1]
    rw [click_match_incomplete eng _ _ (hsel _ (readAt_mem_of_lt _ _ hk1))]
    · simp [clickEffects_append, List.length_take, Nat.min_eq_left (Nat.le_of_lt hk1)]
    · simp [List.length_take, Nat.min_eq_left (Nat.le_of_lt hk1)]
    · simp only [List.length_take, Nat.min_eq_left (Nat.le_of_lt hk1)]
      omega

/-- Clicking the whole pattern, from an empty input buffer, additionally
schedules `nextSequence` at the last click. -/
theorem clicks_all (eng : SelectorEngine) (st : State)
    (hsel : ∀ v ∈ st.gamePattern, selectorOk eng v = true)
    (hu : st.userClickedPattern = []) (hn : 1 ≤ st.gamePattern.length) :
    clicks eng st.gamePattern st =
      { st with userClickedPattern := st.gamePattern,
                timers := st.timers + 1,
                trace := st.trace ++ clickEffects st.gamePattern ++ [.nextSequenceTimeout] } := by
  obtain ⟨k, hk⟩ : ∃ k, st.gamePattern.length = k + 1 := ⟨st.gamePattern.length - 1, by omega⟩
  have hk1 : k < st.gamePattern.length := by omega
  have hfull : st.gamePattern = st.gamePattern.take (k + 1) := by
    rw [← hk, List.take_length]
  have hsplit := readAt_take_succ st.gamePattern k hk1
  rw [← hfull] at hsplit
  conv_lhs => rw [hsplit]
  rw [clicks_append, clicks_take_proper eng st hsel hu k hk1,
    click_match_complete eng _ _ (hsel _ (readAt_mem_of_lt _ _ hk1))]
  · have e1 : (List.take k st.gamePattern).length = k := by
      simp [List.length_take, Nat.min_eq_left (Nat.le_of_lt hk1)]
    have hce : clickEffects st.gamePattern =
        clickEffects (List.take k st.gamePattern) ++
          [.playSound (readAt st.gamePattern k), .animatePress (readAt st.gamePattern k)] := by
      conv_lhs => rw [hsplit]
      exact clickEffects_append _ _
    simp only [e1, hce, List.append_assoc, List.cons_append, List.nil_append]
    rw [← hsplit]
  · simp [List.length_take, Nat.min_eq_left (Nat.le_of_lt hk1)]
  · simp only [List.length_take, Nat.min_eq_left (Nat.le_of_lt hk1)]
    omega

/-- C2. With a pattern of length `n >= 1` and an empty input buffer, clicking
the symbols of the pattern in order never takes the game-over branch
(`gamePattern`, `level` and `started` stay as they were after each of the `n`
clicks), no `nextSequence` timeout is scheduled by the first `n - 1` clicks,
and exactly one is scheduled by the `n`-th click.  The pattern is one whose
entries jQuery accepts as ids, as the colours of `buttonColours`, the only
entries `nextSequence` ever pushes, are (`selectorOk_of_mem_colours`). -/
theorem reproduce_pattern_schedules_once (eng : SelectorEngine) (st : State)
    (hsel : ∀ v ∈ st.gamePattern, selectorOk eng v = true)
    (hn : 1 ≤ st.gamePattern.length) (hu : st.userClickedPattern = []) :
    (∀ k, k ≤ st.gamePattern.length →
        gameOvers (clicks eng (st.gamePattern.take k) st) = gameOvers st ∧
        (clicks eng (st.gamePattern.take k) st).gamePattern = st.gamePattern ∧
        (clicks eng (st.gamePattern.take k) st).level = st.level ∧
        (clicks eng (st.gamePattern.take k) st).started = st.started) ∧
    (∀ k, k < st.gamePattern.length →
        scheduled (clicks eng (st.gamePattern.take k) st) = scheduled st ∧
        (clicks eng (st.gamePattern.take k) st).timers = st.timers) ∧
    scheduled (clicks eng st.gamePattern st) = scheduled st + 1 ∧
    (clicks eng st.gamePattern st).timers = st.timers + 1 := by
  refine ⟨?_, ?_, ?_, ?_⟩
  · intro k hk
    rcases Nat.lt_or_eq_of_le hk with hlt | heq
    · rw [clicks_take_proper eng st hsel hu k hlt]
      simp [gameOvers, List.count_append, count_clickEffects_addGameOverClass]
    · rw [heq, List.take_length, clicks_all eng st hsel hu hn]
      simp [gameOvers, List.count_append, count_clickEffects_addGameOverClass]
  · intro k hk
    rw [clicks_take_proper eng st hsel hu k hk]
    simp [scheduled, List.count_append, count_clickEffects_nextSequenceTimeout]
  · rw [clicks_all eng st hsel hu hn]
    simp [scheduled, List.count_append, count_clickEffects_nextSequenceTimeout]
  · rw [clicks_all eng st hsel hu hn]

theorem reproduce_pattern_schedules_once_witness :
    ((∀ v ∈ scenarioB.gamePattern, selectorOk exampleEngine v = true) ∧
        1 ≤ scenarioB.gamePattern.length ∧ scenarioB.userClickedPattern = []) ∧
      scheduled (clicks exampleEngine scenarioB.gamePattern scenarioB) =
        scheduled scenarioB + 1 ∧
      (clicks exampleEngine scenarioB.gamePattern scenarioB).timers = scenarioB.timers + 1 :=
  ⟨⟨by decide, by decide, rfl⟩,
    (reproduce_pattern_schedules_once exampleEngine scenarioB (by decide) (by decide) rfl).2.2⟩

/-- C3 (as stated, refuted). In `scenarioB` the symbol `a!` differs from the
pattern at position 1, but clicking blue and then the button with id `a!` does
not take the game-over branch: `$("#a!")` throws in `animatePress`, the handler
ends before `checkAnswer`, and `started` is still true. -/
theorem wrong_symbol_ends_game_counterexample :
    some "a!" ≠ readAt scenarioB.gamePattern 1 ∧
      gameOvers (click exampleEngine (some "a!")
        (clicks exampleEngine (scenarioB.gamePattern.take 1) scenarioB)) =
        gameOvers scenarioB ∧
      (click exampleEngine (some "a!")
        (clicks exampleEngine (scenarioB.gamePattern.take 1) scenarioB)).started = true ∧
      (click exampleEngine (some "a!")
        (clicks exampleEngine (scenarioB.gamePattern.take 1) scenarioB)).gamePattern =
        scenarioB.gamePattern := by
  decide

/-- C3 (amended). With an empty input buffer, a pattern whose entries jQuery
accepts as ids (as the colours are), a position `k` inside the pattern and a
symbol `c` different from the pattern at `k` whose selector `#c` jQuery
accepts: clicking the first `k` symbols of the pattern and then `c` takes the
game-over branch at none of the first `k` clicks and at the click of `c`, after
which `started` is false. -/
theorem wrong_symbol_ends_game_at_that_click (eng : SelectorEngine) (st : State)
    (hsel : ∀ v ∈ st.gamePattern, selectorOk eng v = true)
    (hu : st.userClickedPattern = []) (k : Nat) (hk : k < st.gamePattern.length)
    (c : Value) (hcs : selectorOk eng c = true) (hc : c ≠ readAt st.gamePattern k) :
    (∀ j, j ≤ k → gameOvers (clicks eng (st.gamePattern.take j) st) = gameOvers st) ∧
    gameOvers (click eng c (clicks eng (st.gamePattern.take k) st)) = gameOvers st + 1 ∧
    (click eng c (clicks eng (st.gamePattern.take k) st)).started = false := by
  have hlen : (List.take k st.gamePattern).length = k := by
    simp [List.length_take, Nat.min_eq_left (Nat.le_of_lt hk)]
  have hmis : readAt (clicks eng (st.gamePattern.take k) st).gamePattern
      (clicks eng (st.gamePattern.take k) st).userClickedPattern.length ≠ c := by
    rw [clicks_take_proper eng st hsel hu k hk]
    simpa [hlen] using fun h => hc h.symm
  refine ⟨?_, ?_, ?_⟩
  · intro j hj
    rw [clicks_take_proper eng st hsel hu j (Nat.lt_of_le_of_lt hj hk)]
    simp [gameOvers, List.count_append, count_clickEffects_addGameOverClass]
  · rw [click_mismatch eng c _ hcs hmis, clicks_take_proper eng st hsel hu k hk]
    simp [gameOvers, List.count_append, count_clickEffects_addGameOverClass]
  · rw [click_mismatch eng c _ hcs hmis]

theorem wrong_symbol_ends_game_at_that_click_witness :
    ((∀ v ∈ scenarioB.gamePattern, selectorOk exampleEngine v = true) ∧
        scenarioB.userClickedPattern = [] ∧ 1 < scenarioB.gamePattern.length ∧
        selectorOk exampleEngine (some "yellow") = true ∧
        some "yellow" ≠ readAt scenarioB.gamePattern 1) ∧
      (∀ j, j ≤ 1 →
        gameOvers (clicks exampleEngine (scenarioB.gamePattern.take j) scenarioB) =
          gameOvers scenarioB) ∧
      gameOvers (click exampleEngine (some "yellow")
          (clicks exampleEngine (scenarioB.gamePattern.take 1) scenarioB)) =
        gameOvers scenarioB + 1 ∧
      (click exampleEngine (some "yellow")
          (clicks exampleEngine (scenarioB.gamePattern.take 1) scenarioB)).started = false :=
  ⟨⟨by decide, rfl, by decide, by decide, by decide⟩,
    wrong_symbol_ends_game_at_that_click exampleEngine scenarioB (by decide) rfl 1
      (by decide) (some "yellow") (by decide) (by decide)⟩

/-! ## Starting the game -/

theorem reachable_of_run (eng : SelectorEngine) (es : List Event) (s t : State)
    (hs : Reachable eng s) (hd : ∀ e ∈ es, e.drawOk) (h : run eng es s = some t) :
    Reachable eng t := by
  induction es generalizing s with
  | nil =>
    simp only [run, Option.some.injEq] at h
    exact h ▸ hs
  | cons e es ih =>
    simp only [run] at h
    cases hst : step eng e s with
    | none => simp [hst] at h
    | some u =>
      rw [hst] at h
      exact ih u (Reachable.step e hs (hd e (List.mem_cons_self _ _)) hst)
        (fun e' he' => hd e' (List.mem_cons_of_mem _ he')) h

theorem reachableIdOk_of_run (eng : SelectorEngine) (es : List Event) (s t : State)
    (hs : ReachableIdOk eng s) (hd : ∀ e ∈ es, e.drawOk) (hi : ∀ e ∈ es, e.idOk eng)
    (h : run eng es s = some t) : ReachableIdOk eng t := by
  induction es generalizing s with
  | nil =>
    simp only [run, Option.some.injEq] at h
    exact h ▸ hs
  | cons e es ih =>
    simp only [run] at h
    cases hst : step eng e s with
    | none => simp [hst] at h
    | some u =>
      rw [hst] at h
      exact ih u
        (ReachableIdOk.step e hs (hd e (List.mem_cons_self _ _))
          (hi e (List.mem_cons_self _ _)) hst)
        (fun e' he' => hd e' (List.mem_cons_of_mem _ he'))
        (fun e' he' => hi e' (List.mem_cons_of_mem _ he')) h

theorem colourAt_zero : colourAt (randomNumber 0) = some "red" := by
  rw [randomNumber_eq_of_mem 0 0 (by norm_num) (by norm_num)]
  rfl

theorem colourAt_quarter : colourAt (randomNumber (1 / 4)) = some "blue" := by
  rw [randomNumber_eq_of_mem (1 / 4) 1 (by norm_num) (by norm_num)]
  rfl

theorem colourAt_half : colourAt (randomNumber (1 / 2)) = some "green" := by
  rw [randomNumber_eq_of_mem (1 / 2) 2 (by norm_num) (by norm_num)]
  rfl

theorem colourAt_three_quarters : colourAt (randomNumber (3 / 4)) = some "yellow" := by
  rw [randomNumber_eq_of_mem (3 / 4) 3 (by norm_num) (by norm_num)]
  rfl

theorem selectorOk_blue (eng : SelectorEngine) : selectorOk eng (some "blue") = true :=
  selectorOk_of_plainId eng _ (by decide)

theorem selectorOk_red (eng : SelectorEngine) : selectorOk eng (some "red") = true :=
  selectorOk_of_plainId eng _ (by decide)

theorem run_staleTimerEvents (eng : SelectorEngine) :
    run eng staleTimerEvents initial = some staleTimerState := by
  simp [-one_div, staleTimerEvents, staleTimerState, run, step, fire, keypress, click,
    clickHandler, checkAnswer, nextSequence, startOver, playSound, animatePress, emit,
    initial, readAt, colourAt_quarter, colourAt_half, selectorOk_blue, selectorOk_red]

theorem drawOk_staleTimerEvents : ∀ e ∈ staleTimerEvents, e.drawOk := by
  intro e he
  simp only [staleTimerEvents, List.mem_cons, List.mem_singleton, List.not_mem_nil,
    or_false] at he
  rcases he with rfl | rfl | rfl | rfl <;> norm_num [Event.drawOk]

theorem idOk_staleTimerEvents (eng : SelectorEngine) :
    ∀ e ∈ staleTimerEvents, e.idOk eng := by
  intro e he
  simp only [staleTimerEvents, List.mem_cons, List.mem_singleton, List.not_mem_nil,
    or_false] at he
  rcases he with rfl | rfl | rfl | rfl <;>
    simp [Event.idOk, selectorOk_blue, selectorOk_red]

/-- C4 (the code at the failing input). The state reached by losing a game
while a `nextSequence` timeout is pending and letting the timeout fire is a
reachable state with `started == false` (the clicks are on the blue and the red
button); the keypress handler takes it to level 2 with a pattern of length 2,
not to level 1 with a pattern of length 1. -/
theorem keypress_after_stale_timer_reaches_level_two (eng : SelectorEngine) :
    run eng staleTimerEvents initial = some staleTimerState ∧
    Reachable eng staleTimerState ∧
    ReachableIdOk eng staleTimerState ∧
    staleTimerState.started = false ∧
    (keypress 0 staleTimerState).level = 2 ∧
    (keypress 0 staleTimerState).gamePattern.length = 2 ∧
    (keypress 0 staleTimerState).gamePattern = [some "green", some "red"] ∧
    (keypress 0 staleTimerState).userClickedPattern = [] ∧
    (keypress 0 staleTimerState).started = true := by
  refine ⟨run_staleTimerEvents eng,
    reachable_of_run eng _ _ _ Reachable.init drawOk_staleTimerEvents (run_staleTimerEvents eng),
    reachableIdOk_of_run eng _ _ _ ReachableIdOk.init drawOk_staleTimerEvents
      (idOk_staleTimerEvents eng) (run_staleTimerEvents eng),
    rfl, ?_, ?_, ?_, ?_, ?_⟩ <;>
  simp [keypress_not_started, staleTimerState, colourAt_zero]

/-- The keypress handler in a state as `startOver` leaves it (level 0, empty
pattern, not started): level 1, a pattern of length 1, an empty input buffer,
started. -/
theorem keypress_from_level_zero (r : ℚ) (st : State) (hs : st.started = false)
    (hl : st.level = 0) (hg : st.gamePattern = []) :
    (keypress r st).gamePattern.length = 1 ∧ (keypress r st).level = 1 ∧
    (keypress r st).userClickedPattern = [] ∧ (keypress r st).started = true := by
  rw [keypress_not_started r st hs]
  simp [hl, hg]

/-! ## The input buffer is a prefix of the pattern -/

theorem step_input_within_pattern (eng : SelectorEngine) (e : Event) (s t : State)
    (hi : e.idOk eng) (ht : step eng e s = some t)
    (h : s.started = true → s.userClickedPattern <+: s.gamePattern) :
    t.started = true → t.userClickedPattern <+: t.gamePattern := by
  cases e with
  | keypress r =>
    simp only [step, Option.some.injEq] at ht
    subst ht
    cases hst : s.started
    · rw [keypress_not_started r s hst]
      intro _
      exact List.nil_prefix
    · rw [keypress_started r s hst]
      intro _
      exact h hst
  | click v =>
    simp only [step, Option.some.injEq] at ht
    subst ht
    obtain ⟨hsome, hsel⟩ := hi
    obtain ⟨c, rfl⟩ := Option.isSome_iff_exists.mp hsome
    have key : s.started = true →
        readAt s.gamePattern s.userClickedPattern.length = some c →
        s.userClickedPattern ++ [some c] <+: s.gamePattern := by
      intro hst hm
      obtain ⟨rest, hrest⟩ := h hst
      rw [← hrest] at hm
      obtain ⟨tl, htl⟩ := readAt_after_input _ _ _ hm
      refine ⟨tl, ?_⟩
      rw [← hrest, htl]
      simp
    by_cases hm : readAt s.gamePattern s.userClickedPattern.length = some c
    · by_cases hl : s.userClickedPattern.length + 1 = s.gamePattern.length
      · rw [click_match_complete eng _ s hsel hm hl]
        intro hst
        exact key hst hm
      · rw [click_match_incomplete eng _ s hsel hm hl]
        intro hst
        exact key hst hm
    · rw [click_mismatch eng _ s hsel hm]
      intro hst
      exact absurd hst (by simp)
  | fire r =>
    simp only [step, fire] at ht
    split at ht
    · simp only [Option.some.injEq] at ht
      subst ht
      rw [nextSequence_eq]
      intro _
      exact List.nil_prefix
    · exact absurd ht (by simp)

theorem reachable_input_within_pattern (eng : SelectorEngine) (s : State)
    (h : ReachableIdOk eng s) :
    s.started = true → s.userClickedPattern <+: s.gamePattern := by
  induction h with
  | init => intro hst; exact absurd hst (by decide)
  | step e _ _ hi ht ih => exact step_input_within_pattern eng e _ _ hi ht ih

theorem run_afterStart (eng : SelectorEngine) :
    run eng [.keypress (1 / 4)] initial = some afterStart := by
  simp [-one_div, afterStart, run, step, keypress, nextSequence, playSound, emit, initial,
    colourAt_quarter]

theorem run_afterFirstRound (eng : SelectorEngine) :
    run eng [.keypress (1 / 4), .click (some "blue")] initial = some afterFirstRound := by
  simp [-one_div, afterFirstRound, run, step, keypress, click, clickHandler, checkAnswer,
    nextSequence, playSound, animatePress, emit, initial, readAt, colourAt_quarter,
    selectorOk_blue]

theorem reachable_afterStart (eng : SelectorEngine) : Reachable eng afterStart :=
  reachable_of_run eng _ _ _ Reachable.init
    (by intro e he; rw [List.mem_singleton.mp he]; norm_num [Event.drawOk])
    (run_afterStart eng)

theorem reachable_afterFirstRound (eng : SelectorEngine) : Reachable eng afterFirstRound :=
  reachable_of_run eng _ _ _ Reachable.init
    (by
      intro e he
      simp only [List.mem_cons, List.mem_singleton, List.not_mem_nil, or_false] at he
      rcases he with rfl | rfl <;> norm_num [Event.drawOk])
    (run_afterFirstRound eng)

theorem reachableIdOk_afterFirstRound (eng : SelectorEngine) :
    ReachableIdOk eng afterFirstRound :=
  reachableIdOk_of_run eng _ _ _ ReachableIdOk.init
    (by
      intro e he
      simp only [List.mem_cons, List.mem_singleton, List.not_mem_nil, or_false] at he
      rcases he with rfl | rfl <;> norm_num [Event.drawOk])
    (by
      intro e he
      simp only [List.mem_cons, List.mem_singleton, List.not_mem_nil, or_false] at he
      rcases he with rfl | rfl <;> simp [Event.idOk, selectorOk_blue])
    (run_afterFirstRound eng)

/-- C5 (as stated, refuted). Two reachable states with `started == true` whose
`userClickedPattern` is not a prefix of `gamePattern`.  After the start (blue)
the button with id `a!` is clicked: `$("#a!")` throws in `animatePress`, so the
id stays in the buffer and `checkAnswer` does not run.  After the start and the
click of blue, a button without id is clicked while the timeout is pending:
`undefined === undefined` is a match, and the buffer is longer than the
pattern. -/
theorem reachable_started_input_is_prefix_counterexample :
    (Reachable exampleEngine (click exampleEngine (some "a!") afterStart) ∧
      (click exampleEngine (some "a!") afterStart).started = true ∧
      (click exampleEngine (some "a!") afterStart).userClickedPattern = [some "a!"] ∧
      (click exampleEngine (some "a!") afterStart).gamePattern = [some "blue"] ∧
      ¬ (click exampleEngine (some "a!") afterStart).userClickedPattern <+:
          (click exampleEngine (some "a!") afterStart).gamePattern) ∧
    (Reachable exampleEngine (click exampleEngine none afterFirstRound) ∧
      (click exampleEngine none afterFirstRound).started = true ∧
      (click exampleEngine none afterFirstRound).userClickedPattern = [some "blue", none] ∧
      (click exampleEngine none afterFirstRound).gamePattern = [some "blue"] ∧
      ¬ (click exampleEngine none afterFirstRound).userClickedPattern <+:
          (click exampleEngine none afterFirstRound).gamePattern ∧
      (click exampleEngine none afterFirstRound).gamePattern.length <
        (click exampleEngine none afterFirstRound).userClickedPattern.length) := by
  have ha : (click exampleEngine (some "a!") afterStart).userClickedPattern = [some "a!"] := by
    decide
  have hga : (click exampleEngine (some "a!") afterStart).gamePattern = [some "blue"] := by
    decide
  have hb : (click exampleEngine none afterFirstRound).userClickedPattern =
      [some "blue", none] := by
    decide
  have hgb : (click exampleEngine none afterFirstRound).gamePattern = [some "blue"] := by
    decide
  refine ⟨⟨Reachable.step (Event.click (some "a!")) (reachable_afterStart _) trivial rfl,
      by decide, ha, hga, ?_⟩,
    ⟨Reachable.step (Event.click none) (reachable_afterFirstRound _) trivial rfl,
      by decide, hb, hgb, ?_, by decide⟩⟩
  · rw [ha, hga]
    intro h
    have := h.length_le
    have h2 := List.prefix_iff_eq_take.mp h
    simp at h2
  · rw [hb, hgb]
    intro h
    have := h.length_le
    simp at this

/-- C5 (amended). In every state reachable from the initial state by
keypresses, clicks on buttons that have an id whose selector jQuery accepts
(the four colour buttons are such), and firings of a pending `nextSequence`
timeout, if `started` is true then `userClickedPattern` is a prefix of
`gamePattern`, and so is not longer than it. -/
theorem reachable_started_input_is_prefix (eng : SelectorEngine) (s : State)
    (h : ReachableIdOk eng s) (hs : s.started = true) :
    s.userClickedPattern <+: s.gamePattern ∧
      s.userClickedPattern.length ≤ s.gamePattern.length :=
  ⟨reachable_input_within_pattern eng s h hs,
    (reachable_input_within_pattern eng s h hs).length_le⟩

theorem reachable_started_input_is_prefix_witness :
    (ReachableIdOk exampleEngine afterFirstRound ∧ afterFirstRound.started = true) ∧
      afterFirstRound.userClickedPattern = [some "blue"] ∧
      afterFirstRound.userClickedPattern <+: afterFirstRound.gamePattern ∧
      afterFirstRound.userClickedPattern.length ≤ afterFirstRound.gamePattern.length :=
  ⟨⟨reachableIdOk_afterFirstRound exampleEngine, rfl⟩, rfl,
    reachable_started_input_is_prefix exampleEngine afterFirstRound
      (reachableIdOk_afterFirstRound exampleEngine) rfl⟩

/-! ## `nextSequence` -/

/-- C6. For every state and every draw in `[0, 1)`, `nextSequence` empties
`userClickedPattern`, adds exactly one to `level`, and appends exactly one
element, a member of `buttonColours`, at the end of `gamePattern`, whose
earlier elements are unchanged. -/
theorem nextSequence_appends_one_colour (r : ℚ) (st : State) (h0 : 0 ≤ r) (h1 : r < 1) :
    (nextSequence r st).userClickedPattern = [] ∧
    (nextSequence r st).level = st.level + 1 ∧
    (∃ c, c ∈ buttonColours ∧
      (nextSequence r st).gamePattern = st.gamePattern ++ [some c]) ∧
    (nextSequence r st).gamePattern.length = st.gamePattern.length + 1 ∧
    (nextSequence r st).gamePattern.take st.gamePattern.length = st.gamePattern := by
  obtain ⟨c, hc, hcol⟩ := colourAt_mem r h0 h1
  rw [nextSequence_eq]
  refine ⟨rfl, rfl, ⟨c, hc, ?_⟩, ?_, ?_⟩
  · simp [hcol]
  · simp
  · simp

theorem nextSequence_appends_one_colour_witness :
    ((0 : ℚ) ≤ 3 / 4 ∧ (3 / 4 : ℚ) < 1) ∧
      (nextSequence (3 / 4) scenarioB).userClickedPattern = [] ∧
      (nextSequence (3 / 4) scenarioB).level = scenarioB.level + 1 ∧
      (∃ c, c ∈ buttonColours ∧
        (nextSequence (3 / 4) scenarioB).gamePattern = scenarioB.gamePattern ++ [some c]) ∧
      (nextSequence (3 / 4) scenarioB).gamePattern.length = scenarioB.gamePattern.length + 1 ∧
      (nextSequence (3 / 4) scenarioB).gamePattern.take scenarioB.gamePattern.length =
        scenarioB.gamePattern :=
  ⟨⟨by norm_num, by norm_num⟩,
    nextSequence_appends_one_colour (3 / 4) scenarioB (by norm_num) (by norm_num)⟩

/-! ## A mismatching click -/

/-- C7 (as stated, refuted). In `scenarioB` the click of yellow mismatches the
pattern at index 0, and after the click `gamePattern` is not what it was. -/
theorem mismatch_click_keeps_pattern_counterexample :
    readAt scenarioB.gamePattern scenarioB.userClickedPattern.length ≠ some "yellow" ∧
      (click exampleEngine (some "yellow") scenarioB).gamePattern = [] ∧
      (click exampleEngine (some "yellow") scenarioB).gamePattern ≠ scenarioB.gamePattern := by
  decide

/-- C7 (amended). For every state and clicked symbol whose selector jQuery
accepts, where the click mismatches, the click takes the game-over branch once;
afterwards `gamePattern` is empty, `level` is 0 and `started` is false, and
`userClickedPattern` is the old `userClickedPattern` with the clicked symbol
appended. -/
theorem mismatch_click_clears_pattern_keeps_input (eng : SelectorEngine) (c : Value)
    (st : State) (hs : selectorOk eng c = true)
    (h : readAt st.gamePattern st.userClickedPattern.length ≠ c) :
    (click eng c st).gamePattern = [] ∧
    (click eng c st).userClickedPattern = st.userClickedPattern ++ [c] ∧
    (click eng c st).level = 0 ∧
    (click eng c st).started = false ∧
    gameOvers (click eng c st) = gameOvers st + 1 := by
  rw [click_mismatch eng c st hs h]
  refine ⟨rfl, rfl, rfl, rfl, ?_⟩
  simp [gameOvers, List.count_append]

theorem mismatch_click_clears_pattern_keeps_input_witness :
    (selectorOk exampleEngine (some "green") = true ∧
        readAt scenarioB.gamePattern scenarioB.userClickedPattern.length ≠ some "green") ∧
      (click exampleEngine (some "green") scenarioB).gamePattern = [] ∧
      (click exampleEngine (some "green") scenarioB).userClickedPattern =
        scenarioB.userClickedPattern ++ [some "green"] ∧
      (click exampleEngine (some "green") scenarioB).level = 0 ∧
      (click exampleEngine (some "green") scenarioB).started = false ∧
      gameOvers (click exampleEngine (some "green") scenarioB) = gameOvers scenarioB + 1 :=
  ⟨⟨by decide, by decide⟩,
    mismatch_click_clears_pattern_keeps_input exampleEngine (some "green") scenarioB
      (by decide) (by decide)⟩

/-! ## A click before the game is started -/

/-- C8 (as stated, refuted). In the initial state the click of red is not
rejected: the handler returns without an error, having taken the game-over
branch and changed `userClickedPattern`. -/
theorem idle_click_rejected_counterexample :
    clickHandler exampleEngine (some "red") initial =
        .ok (click exampleEngine (some "red") initial) ∧
      gameOvers (click exampleEngine (some "red") initial) = gameOvers initial + 1 ∧
      (click exampleEngine (some "red") initial).userClickedPattern = [some "red"] ∧
      (click exampleEngine (some "red") initial).userClickedPattern ≠
        initial.userClickedPattern :=
  ⟨clickHandler_returns exampleEngine (some "red") initial (by decide), by decide⟩

/-- C8 (amended). In a state with `started == false`, `gamePattern` empty,
`userClickedPattern` empty and `level == 0`, a button click with a symbol whose
selector jQuery accepts (every colour is one) is handled like every other
click: the handler returns without an error, the symbol is appended to
`userClickedPattern` and the game-over branch is taken once; `gamePattern`,
`level` and `started` are what they were. -/
theorem idle_click_takes_game_over_branch (eng : SelectorEngine) (c : String) (st : State)
    (hcs : selectorOk eng (some c) = true)
    (hs : st.started = false) (hg : st.gamePattern = []) (hu : st.userClickedPattern = [])
    (hl : st.level = 0) :
    clickHandler eng (some c) st = .ok (click eng (some c) st) ∧
    gameOvers (click eng (some c) st) = gameOvers st + 1 ∧
    (click eng (some c) st).userClickedPattern = [some c] ∧
    (click eng (some c) st).gamePattern = st.gamePattern ∧
    (click eng (some c) st).level = st.level ∧
    (click eng (some c) st).started = st.started := by
  have hm : readAt st.gamePattern st.userClickedPattern.length ≠ some c := by
    simp [hg, hu, readAt]
  refine ⟨clickHandler_returns eng _ st hcs, ?_⟩
  rw [click_mismatch eng _ st hcs hm]
  simp [gameOvers, List.count_append, hs, hg, hu, hl]

theorem idle_click_takes_game_over_branch_witness :
    (selectorOk exampleEngine (some "blue") = true ∧ initial.started = false ∧
        initial.gamePattern = [] ∧ initial.userClickedPattern = [] ∧ initial.level = 0) ∧
      clickHandler exampleEngine (some "blue") initial =
        .ok (click exampleEngine (some "blue") initial) ∧
      gameOvers (click exampleEngine (some "blue") initial) = gameOvers initial + 1 ∧
      (click exampleEngine (some "blue") initial).userClickedPattern = [some "blue"] ∧
      (click exampleEngine (some "blue") initial).gamePattern = initial.gamePattern ∧
      (click exampleEngine (some "blue") initial).level = initial.level ∧
      (click exampleEngine (some "blue") initial).started = initial.started :=
  ⟨⟨by decide, rfl, rfl, rfl, rfl⟩,
    idle_click_takes_game_over_branch exampleEngine "blue" initial (by decide) rfl rfl rfl rfl⟩

/-! ## A keypress while the game is running -/

/-- C9. For every state with `started == true` the keypress handler changes
nothing: the four variables, the pending timeouts and the trace of effects are
what they were, so `nextSequence` has not run. -/
theorem keypress_when_started_is_noop (r : ℚ) (st : State) (h : st.started = true) :
    keypress r st = st := by
  simp [keypress, h]

theorem keypress_when_started_is_noop_witness :
    scenarioB.started = true ∧ keypress 0 scenarioB = scenarioB :=
  ⟨rfl, keypress_when_started_is_noop 0 scenarioB rfl⟩

/-! ## `startOver` -/

/-- C10 (as stated, refuted). When yellow is clicked in `scenarioB`,
`checkAnswer` calls `startOver` in the state `scenarioBAtStartOver`, and after
`startOver` the input buffer still holds the click: it is not empty. -/
theorem startOver_clears_input_counterexample :
    click exampleEngine (some "yellow") scenarioB = startOver scenarioBAtStartOver ∧
      (startOver scenarioBAtStartOver).userClickedPattern = [some "yellow"] ∧
      (startOver scenarioBAtStartOver).userClickedPattern ≠ [] := by
  decide

/-- C10 (amended). For every state, `startOver` sets `level` to 0, empties
`gamePattern` and sets `started` to false; `userClickedPattern` is left as it
is, and so are the pending timeouts and the page. -/
theorem startOver_resets_level_pattern_started (st : State) :
    (startOver st).level = 0 ∧
    (startOver st).gamePattern = [] ∧
    (startOver st).started = false ∧
    (startOver st).userClickedPattern = st.userClickedPattern ∧
    (startOver st).timers = st.timers ∧
    (startOver st).trace = st.trace :=
  ⟨rfl, rfl, rfl, rfl, rfl, rfl⟩

/-- C11. `startOver` is idempotent: running it twice gives the same state, on
all four variables (and on the pending timeouts and the page), as running it
once. -/
theorem startOver_idempotent (st : State) :
    startOver (startOver st) = startOver st ∧
    (startOver (startOver st)).gamePattern = (startOver st).gamePattern ∧
    (startOver (startOver st)).userClickedPattern = (startOver st).userClickedPattern ∧
    (startOver (startOver st)).level = (startOver st).level ∧
    (startOver (startOver st)).started = (startOver st).started :=
  ⟨rfl, rfl, rfl, rfl, rfl⟩

/-! ## The selection of the colour -/

theorem randomNumber_eq_iff (r : ℚ) (k : Nat) :
    randomNumber r = (k : Int) ↔ (k : ℚ) / 4 ≤ r ∧ r < ((k : ℚ) + 1) / 4 := by
  unfold randomNumber
  rw [Int.floor_eq_iff]
  push_cast
  constructor
  · rintro ⟨h1, h2⟩
    constructor <;> linarith
  · rintro ⟨h1, h2⟩
    constructor <;> linarith

theorem colourAt_eq_get_iff (n : Int) (k : Nat) (hn0 : 0 ≤ n) (hn : n < 4) (hk : k < 4) :
    colourAt n = buttonColours.get? k ↔ n = (k : Int) := by
  interval_cases n <;> interval_cases k <;> simp [colourAt, buttonColours]

/-- C12. For every exact draw `r` with `0 <= r < 1`, `floor(r * 4)` is one of
0, 1, 2, 3, so `buttonColours[randomNumber]` is one of the four colours; and
for each `k` in 0..3 the draws that give index `k`, and those that select
`buttonColours[k]`, are exactly those with `k/4 <= r < (k+1)/4`, an interval
of length 1/4. -/
theorem randomNumber_uniform_over_colours (r : ℚ) (h0 : 0 ≤ r) (h1 : r < 1) :
    (0 ≤ randomNumber r ∧ randomNumber r < 4) ∧
    (∃ c, c ∈ buttonColours ∧ colourAt (randomNumber r) = some c) ∧
    (∀ k : Nat, k < 4 →
      ((randomNumber r = (k : Int) ↔ (k : ℚ) / 4 ≤ r ∧ r < ((k : ℚ) + 1) / 4) ∧
       (colourAt (randomNumber r) = buttonColours.get? k ↔
          (k : ℚ) / 4 ≤ r ∧ r < ((k : ℚ) + 1) / 4) ∧
       ((k : ℚ) + 1) / 4 - (k : ℚ) / 4 = 1 / 4)) := by
  have hr := randomNumber_range r h0 h1
  refine ⟨hr, colourAt_mem r h0 h1, ?_⟩
  intro k hk
  refine ⟨randomNumber_eq_iff r k, ?_, by ring⟩
  rw [colourAt_eq_get_iff _ k hr.1 hr.2 hk]
  exact randomNumber_eq_iff r k

theorem randomNumber_uniform_over_colours_witness :
    ((0 : ℚ) ≤ 5 / 8 ∧ (5 / 8 : ℚ) < 1) ∧
      (0 ≤ randomNumber (5 / 8) ∧ randomNumber (5 / 8) < 4) ∧
      (∃ c, c ∈ buttonColours ∧ colourAt (randomNumber (5 / 8)) = some c) ∧
      (∀ k : Nat, k < 4 →
        ((randomNumber (5 / 8) = (k : Int) ↔
            (k : ℚ) / 4 ≤ 5 / 8 ∧ (5 / 8 : ℚ) < ((k : ℚ) + 1) / 4) ∧
         (colourAt (randomNumber (5 / 8)) = buttonColours.get? k ↔
            (k : ℚ) / 4 ≤ 5 / 8 ∧ (5 / 8 : ℚ) < ((k : ℚ) + 1) / 4) ∧
         ((k : ℚ) + 1) / 4 - (k : ℚ) / 4 = 1 / 4)) :=
  ⟨⟨by norm_num, by norm_num⟩,
    randomNumber_uniform_over_colours (5 / 8) (by norm_num) (by norm_num)⟩

/-! ## A click with an id that is not a colour -/

theorem readAt_mem (xs : List Value) (i : Nat) (c : String) (h : readAt xs i = some c) :
    some c ∈ xs := by
  unfold readAt at h
  rw [List.getD_eq_getElem?_getD] at h
  by_cases hi : i < xs.length
  · rw [List.getElem?_eq_getElem hi] at h
    simp only [Option.getD_some] at h
    rw [← h]
    exact List.getElem_mem hi
  · rw [List.getElem?_eq_none (Nat.le_of_not_lt hi)] at h
    simp at h

theorem click_userClickedPattern (eng : SelectorEngine) (c : Value) (st : State) :
    (click eng c st).userClickedPattern = st.userClickedPattern ++ [c] := by
  cases hsel : selectorOk eng c
  · rw [click_thrown eng c st hsel]
  · by_cases hm : readAt st.gamePattern st.userClickedPattern.length = c
    · by_cases hl : st.userClickedPattern.length + 1 = st.gamePattern.length
      · rw [click_match_complete eng c st hsel hm hl]
      · rw [click_match_incomplete eng c st hsel hm hl]
    · rw [click_mismatch eng c st hsel hm]

theorem step_coloursOnly (eng : SelectorEngine) (e : Event) (s t : State) (hd : e.drawOk)
    (ht : step eng e s = some t) (h : coloursOnly s) : coloursOnly t := by
  have hnext : ∀ r : ℚ, 0 ≤ r ∧ r < 1 →
      ∀ v ∈ s.gamePattern ++ [colourAt (randomNumber r)], v ∈ buttonColours.map some := by
    intro r hr v hv
    rcases List.mem_append.mp hv with hv | hv
    · exact h v hv
    · obtain ⟨c, hc, hcol⟩ := colourAt_mem r hr.1 hr.2
      rw [List.mem_singleton.mp hv, hcol]
      exact List.mem_map.mpr ⟨c, hc, rfl⟩
  cases e with
  | keypress r =>
    simp only [step, Option.some.injEq] at ht
    subst ht
    cases hst : s.started
    · rw [keypress_not_started r s hst]
      exact hnext r hd
    · rw [keypress_started r s hst]
      exact h
  | click c =>
    simp only [step, Option.some.injEq] at ht
    subst ht
    cases hsel : selectorOk eng c
    · rw [click_thrown eng c s hsel]
      exact h
    · by_cases hm : readAt s.gamePattern s.userClickedPattern.length = c
      · by_cases hl : s.userClickedPattern.length + 1 = s.gamePattern.length
        · rw [click_match_complete eng c s hsel hm hl]
          exact h
        · rw [click_match_incomplete eng c s hsel hm hl]
          exact h
      · rw [click_mismatch eng c s hsel hm]
        intro v hv
        exact absurd hv (List.not_mem_nil v)
  | fire r =>
    simp only [step, fire] at ht
    split at ht
    · simp only [Option.some.injEq] at ht
      subst ht
      rw [nextSequence_eq]
      exact hnext r hd
    · exact absurd ht (by simp)

/-- In every reachable state `gamePattern` holds colours of `buttonColours`
only. -/
theorem reachable_coloursOnly (eng : SelectorEngine) (s : State) (h : Reachable eng s) :
    coloursOnly s := by
  induction h with
  | init =>
    intro v hv
    exact absurd hv (List.not_mem_nil v)
  | step e _ hd ht ih => exact step_coloursOnly eng e _ _ hd ht ih

/-- C13 (as stated, refuted). In `scenarioB` the click of a button with id
purple, which is not a colour of `buttonColours`, is not rejected: the handler
returns without an error, the id is appended to `userClickedPattern` and the
game-over branch is taken. -/
theorem click_outside_colours_rejected_counterexample :
    "purple" ∉ buttonColours ∧
      clickHandler exampleEngine (some "purple") scenarioB =
        .ok (click exampleEngine (some "purple") scenarioB) ∧
      (click exampleEngine (some "purple") scenarioB).userClickedPattern =
        scenarioB.userClickedPattern ++ [some "purple"] ∧
      (click exampleEngine (some "purple") scenarioB).userClickedPattern ≠
        scenarioB.userClickedPattern ∧
      gameOvers (click exampleEngine (some "purple") scenarioB) = gameOvers scenarioB + 1 :=
  ⟨by decide, clickHandler_returns exampleEngine (some "purple") scenarioB (by decide),
    by decide⟩

/-- C13 (amended). For every state whose `gamePattern` holds colours only (as
in every reachable state) and every symbol that is not a member of
`buttonColours` and whose selector jQuery accepts, a button click with that
symbol is handled like every other click: the handler returns without an
error, the symbol is appended to `userClickedPattern`, and the comparison with
`gamePattern` fails, so that the click is a gameplay mismatch and takes the
game-over branch. -/
theorem click_outside_colours_is_a_mismatch (eng : SelectorEngine) (c : String) (st : State)
    (hc : c ∉ buttonColours) (hcs : selectorOk eng (some c) = true)
    (hcol : coloursOnly st) :
    clickHandler eng (some c) st = .ok (click eng (some c) st) ∧
    (click eng (some c) st).userClickedPattern = st.userClickedPattern ++ [some c] ∧
    gameOvers (click eng (some c) st) = gameOvers st + 1 ∧
    (click eng (some c) st).gamePattern = [] ∧
    (click eng (some c) st).level = 0 ∧
    (click eng (some c) st).started = false := by
  have hm : readAt st.gamePattern st.userClickedPattern.length ≠ some c := by
    intro hread
    have hmem := hcol _ (readAt_mem _ _ _ hread)
    obtain ⟨d, hd, hdc⟩ := List.mem_map.mp hmem
    have : d = c := Option.some.inj hdc
    exact hc (this ▸ hd)
  refine ⟨clickHandler_returns eng _ st hcs, ?_⟩
  rw [click_mismatch eng _ st hcs hm]
  simp [gameOvers, List.count_append]

theorem click_outside_colours_is_a_mismatch_witness :
    ("orange" ∉ buttonColours ∧ selectorOk exampleEngine (some "orange") = true ∧
        coloursOnly scenarioB) ∧
      clickHandler exampleEngine (some "orange") scenarioB =
        .ok (click exampleEngine (some "orange") scenarioB) ∧
      (click exampleEngine (some "orange") scenarioB).userClickedPattern =
        scenarioB.userClickedPattern ++ [some "orange"] ∧
      gameOvers (click exampleEngine (some "orange") scenarioB) = gameOvers scenarioB + 1 ∧
      (click exampleEngine (some "orange") scenarioB).gamePattern = [] ∧
      (click exampleEngine (some "orange") scenarioB).level = 0 ∧
      (click exampleEngine (some "orange") scenarioB).started = false :=
  ⟨⟨by decide, by decide, by decide⟩,
    click_outside_colours_is_a_mismatch exampleEngine "orange" scenarioB
      (by decide) (by decide) (by decide)⟩

/-! ## A matching click inside the round -/

/-- C14. For every state and clicked symbol `c` that equals
`gamePattern[userClickedPattern.length]` with
`userClickedPattern.length + 1 < gamePattern.length`, the click appends `c` to
`userClickedPattern` and plays its sound and animation, and changes nothing
else: `gamePattern`, `level`, `started` and the pending timeouts are unchanged,
`nextSequence` is not scheduled and the game-over branch is not taken.  The
symbol, an entry of `gamePattern`, is one whose selector jQuery accepts, as
the colours of `buttonColours`, the only entries `nextSequence` ever pushes,
are (`selectorOk_of_mem_colours`). -/
theorem matching_click_inside_round_only_appends (eng : SelectorEngine) (c : Value)
    (st : State) (hs : selectorOk eng c = true)
    (hm : readAt st.gamePattern st.userClickedPattern.length = c)
    (hl : st.userClickedPattern.length + 1 < st.gamePattern.length) :
    click eng c st =
      { st with userClickedPattern := st.userClickedPattern ++ [c],
                trace := st.trace ++ [.playSound c, .animatePress c] } ∧
    (click eng c st).userClickedPattern = st.userClickedPattern ++ [c] ∧
    (click eng c st).gamePattern = st.gamePattern ∧
    (click eng c st).level = st.level ∧
    (click eng c st).started = st.started ∧
    (click eng c st).timers = st.timers ∧
    scheduled (click eng c st) = scheduled st ∧
    gameOvers (click eng c st) = gameOvers st := by
  rw [click_match_incomplete eng c st hs hm (Nat.ne_of_lt hl)]
  refine ⟨rfl, rfl, rfl, rfl, rfl, rfl, ?_, ?_⟩
  · simp [scheduled, List.count_append]
  · simp [gameOvers, List.count_append]

theorem matching_click_inside_round_only_appends_witness :
    (selectorOk exampleEngine (some "blue") = true ∧
        readAt scenarioB.gamePattern scenarioB.userClickedPattern.length = some "blue" ∧
        scenarioB.userClickedPattern.length + 1 < scenarioB.gamePattern.length) ∧
      (click exampleEngine (some "blue") scenarioB).userClickedPattern = [some "blue"] ∧
      (click exampleEngine (some "blue") scenarioB).gamePattern = scenarioB.gamePattern ∧
      scheduled (click exampleEngine (some "blue") scenarioB) = scheduled scenarioB ∧
      gameOvers (click exampleEngine (some "blue") scenarioB) = gameOvers scenarioB :=
  ⟨⟨by decide, by decide, by decide⟩,
    (matching_click_inside_round_only_appends exampleEngine (some "blue") scenarioB
      (by decide) (by decide) (by decide)).2.1,
    (matching_click_inside_round_only_appends exampleEngine (some "blue") scenarioB
      (by decide) (by decide) (by decide)).2.2.1,
    (matching_click_inside_round_only_appends exampleEngine (some "blue") scenarioB
      (by decide) (by decide) (by decide)).2.2.2.2.2.2⟩

/-! ## A click when the input buffer is not shorter than the pattern -/

/-- C15 (as stated, refuted). In `roundCompletePending` the buffer is as long
as the pattern, but neither the click of the button with id `a!` nor the click
of a button without id takes the game-over branch.  For `a!`, `$("#a!")`
throws in `animatePress` and `checkAnswer` does not run; without id,
`undefined === undefined` is a match.  In both cases `level` is still 1,
`gamePattern` still blue and `started` still true. -/
theorem click_with_full_buffer_counterexample :
    roundCompletePending.gamePattern.length ≤ roundCompletePending.userClickedPattern.length ∧
      (gameOvers (click exampleEngine (some "a!") roundCompletePending) =
          gameOvers roundCompletePending ∧
        (click exampleEngine (some "a!") roundCompletePending).level = 1 ∧
        (click exampleEngine (some "a!") roundCompletePending).gamePattern = [some "blue"] ∧
        (click exampleEngine (some "a!") roundCompletePending).started = true) ∧
      (gameOvers (click exampleEngine none roundCompletePending) =
          gameOvers roundCompletePending ∧
        (click exampleEngine none roundCompletePending).level = 1 ∧
        (click exampleEngine none roundCompletePending).gamePattern = [some "blue"] ∧
        (click exampleEngine none roundCompletePending).started = true) := by
  decide

/-- C15 (amended). For every state in which `userClickedPattern` is at least
as long as `gamePattern` and for every clicked symbol that is a string whose
selector jQuery accepts (every colour is one), the click takes the game-over
branch: afterwards `level` is 0, `gamePattern` is empty and `started` is false,
and `userClickedPattern` is the old buffer with the clicked symbol appended. -/
theorem click_with_full_buffer_ends_game (eng : SelectorEngine) (c : String) (st : State)
    (hcs : selectorOk eng (some c) = true)
    (h : st.gamePattern.length ≤ st.userClickedPattern.length) :
    gameOvers (click eng (some c) st) = gameOvers st + 1 ∧
    (click eng (some c) st).level = 0 ∧
    (click eng (some c) st).gamePattern = [] ∧
    (click eng (some c) st).started = false ∧
    (click eng (some c) st).userClickedPattern = st.userClickedPattern ++ [some c] := by
  have hm : readAt st.gamePattern st.userClickedPattern.length ≠ some c := by
    unfold readAt
    rw [List.getD_eq_getElem?_getD, List.getElem?_eq_none h]
    simp
  rw [click_mismatch eng _ st hcs hm]
  simp [gameOvers, List.count_append]

theorem click_with_full_buffer_ends_game_witness :
    (selectorOk exampleEngine (some "blue") = true ∧
        roundCompletePending.gamePattern.length ≤
          roundCompletePending.userClickedPattern.length) ∧
      gameOvers (click exampleEngine (some "blue") roundCompletePending) =
        gameOvers roundCompletePending + 1 ∧
      (click exampleEngine (some "blue") roundCompletePending).level = 0 ∧
      (click exampleEngine (some "blue") roundCompletePending).gamePattern = [] ∧
      (click exampleEngine (some "blue") roundCompletePending).started = false ∧
      (click exampleEngine (some "blue") roundCompletePending).userClickedPattern =
        roundCompletePending.userClickedPattern ++ [some "blue"] :=
  ⟨⟨by decide, by decide⟩,
    click_with_full_buffer_ends_game exampleEngine "blue" roundCompletePending
      (by decide) (by decide)⟩

end SimonGame
